import Mathlib

/-!
# RLVM graphics objects, frame counters and codepages

A shallow embedding of `src/Systems/Base/GraphicsObjectData.cpp` (clipping at
render time, the animation lifecycle), of the frame counters declared in
`src/Systems/Base/FrameCounter.hpp`, and of `src/Encodings/codepage.cpp`
(`JisDecodeString`, the `Cp` singleton).

* C++ `int` is embedded as `Int`.  Signed overflow is undefined behaviour in
  C++, so the embedding speaks about runs in which no intermediate value leaves
  the `int` range.
* Calls that leave the class (the composite call on the surface, the deletion
  request on the owner, the writes to the debug stream) are recorded in order
  in an explicit log.
* The member functions `render` calls on `this` are passed in as a table of
  functions: `currentSurface` is pure virtual, `srcRect` and `dstRect` read the
  pattern table of the surface (and `dstRect` scales in `float`), and
  `getRenderingAlpha` may be overridden; the claims on `render` hold for every
  such table.
-/

namespace RLVM

/-! ## Geometry -/

/-- Modelled from the spec: the `Rect` type of `Systems/Base/Rect.hpp`, whose
declaration is not among the sources.  The spec describes a rectangle by its
four edges (left `x`, top `y`, right `x2`, bottom `y2`) and the clipping
algorithm as moving one edge at a time ("shrink D to that bound and shift the
corresponding source-rect edge"), so each setter replaces exactly one edge and
leaves the other three as they are. -/
structure Rect where
  x : Int
  y : Int
  x2 : Int
  y2 : Int
  deriving DecidableEq, Repr

namespace Rect

/-- `Rect::GRP(x1, y1, x2, y2)`: a rectangle given by its four edges. -/
def GRP (x1 y1 x2 y2 : Int) : Rect := ⟨x1, y1, x2, y2⟩

/-- `Rect::setX`. -/
def setX (r : Rect) (v : Int) : Rect := { r with x := v }

/-- `Rect::setY`. -/
def setY (r : Rect) (v : Int) : Rect := { r with y := v }

/-- `Rect::setX2`. -/
def setX2 (r : Rect) (v : Int) : Rect := { r with x2 := v }

/-- `Rect::setY2`. -/
def setY2 (r : Rect) (v : Int) : Rect := { r with y2 := v }

/-- `Rect::width`. -/
def width (r : Rect) : Int := r.x2 - r.x

/-- `Rect::height`. -/
def height (r : Rect) : Int := r.y2 - r.y

end Rect

/-! ## The owning object and the surface (external collaborators) -/

/-- The part of `GraphicsObject` (the owner) that `render` reads: the clip
presence flag, the four clip bounds and the alpha value.  `ident` stands for
the identity of the object (what a `GraphicsObject*` points to). -/
structure GraphicsObject where
  ident : Nat
  hasClip : Bool
  clipX1 : Int
  clipY1 : Int
  clipX2 : Int
  clipY2 : Int
  alpha : Int
  deriving DecidableEq, Repr

/-- A surface handle, the target of `boost::shared_ptr<Surface>`. -/
structure Surface where
  ident : Nat
  deriving DecidableEq, Repr

/-- One call `surface->renderToScreenAsObject(go, src, dst, alpha)`. -/
structure CompositeCall where
  surface : Surface
  go : GraphicsObject
  src : Rect
  dst : Rect
  alpha : Int
  deriving DecidableEq, Repr

/-- One piece of output written to the debug stream `tree`. -/
inductive TreeOutput where
  /-- The call `objectInfo(*tree)`. -/
  | objectInfo
  /-- The line "  Rendering src to dst", with "(alpha=..)" when alpha is not 255. -/
  | rendering (src dst : Rect) (alpha : Option Int)
  /-- The line "  After clipping rect, src to dst", with the same alpha suffix. -/
  | afterClipping (src dst : Rect) (alpha : Option Int)
  deriving DecidableEq, Repr

/-- Everything `render` does that is visible from outside: the composite calls
and the debug output, each in order. -/
structure RenderLog where
  composites : List CompositeCall
  tree : List TreeOutput
  deriving DecidableEq, Repr

/-- The member functions `render` calls on `this` (lines 64, 66-68), each as a
function of the owner. -/
structure Virtuals where
  currentSurface : GraphicsObject → Option Surface
  srcRect : GraphicsObject → Rect
  dstRect : GraphicsObject → Rect
  getRenderingAlpha : GraphicsObject → Int

/-- `GraphicsObjectData::getRenderingAlpha` (lines 181-184). -/
def getRenderingAlpha (go : GraphicsObject) : Int := go.alpha

/-- The alpha suffix of a debug line: present when `alpha != 255`. -/
def alphaSuffix (alpha : Int) : Option Int :=
  if alpha ≠ 255 then some alpha else none

/-! ## The clipping step of `render` (lines 79-101) -/

/-- The rejection test (lines 81-82): the object falls wholly outside the clip
area. -/
def rejects (go : GraphicsObject) (dst : Rect) : Bool :=
  decide (dst.x2 < go.clipX1) || decide (dst.x > go.clipX2) ||
    decide (dst.y2 < go.clipY1) || decide (dst.y > go.clipY2)

/-- Lines 86-89: the left edge. -/
def clipLeft (go : GraphicsObject) (p : Rect × Rect) : Rect × Rect :=
  if p.2.x < go.clipX1 then
    (p.1.setX (p.1.x + go.clipX1 - p.2.x), p.2.setX go.clipX1)
  else p

/-- Lines 90-93: the top edge. -/
def clipTop (go : GraphicsObject) (p : Rect × Rect) : Rect × Rect :=
  if p.2.y < go.clipY1 then
    (p.1.setY (p.1.y + go.clipY1 - p.2.y), p.2.setY go.clipY1)
  else p

/-- Lines 94-97: the right edge. -/
def clipRight (go : GraphicsObject) (p : Rect × Rect) : Rect × Rect :=
  if p.2.x2 ≥ go.clipX2 then
    (p.1.setX2 (p.1.x2 - p.2.x2 + go.clipX2), p.2.setX2 go.clipX2)
  else p

/-- Lines 98-101: the bottom edge. -/
def clipBottom (go : GraphicsObject) (p : Rect × Rect) : Rect × Rect :=
  if p.2.y2 ≥ go.clipY2 then
    (p.1.setY2 (p.1.y2 - p.2.y2 + go.clipY2), p.2.setY2 go.clipY2)
  else p

/-- Lines 85-101: the four adjustments, in source order. -/
def clipAdjust (go : GraphicsObject) (p : Rect × Rect) : Rect × Rect :=
  clipBottom go (clipRight go (clipTop go (clipLeft go p)))

/-- The clipping step, lines 81-101: `none` when `render` returns at line 83,
otherwise the pair `(src, dst)` after the four adjustments. -/
def clipRects (go : GraphicsObject) (src dst : Rect) : Option (Rect × Rect) :=
  if rejects go dst then none
  else some (clipAdjust go (src, dst))

/-- `GraphicsObjectData::render` (lines 61-113).  `tree` says whether a debug
stream was supplied. -/
def render (v : Virtuals) (go : GraphicsObject) (tree : Bool) : RenderLog :=
  match v.currentSurface go with
  | none => ⟨[], []⟩
  | some surface =>
    let src := v.srcRect go
    let dst := v.dstRect go
    let alpha := v.getRenderingAlpha go
    let out1 : List TreeOutput :=
      if tree then [.objectInfo, .rendering src dst (alphaSuffix alpha)] else []
    if go.hasClip then
      match clipRects go src dst with
      | none => ⟨[], out1⟩
      | some (src1, dst1) =>
        let out2 : List TreeOutput :=
          if tree then [.afterClipping src1 dst1 (alphaSuffix alpha)] else []
        ⟨[⟨surface, go, src1, dst1, alpha⟩], out1 ++ out2⟩
    else
      ⟨[⟨surface, go, src, dst, alpha⟩], out1⟩

/-- A table of virtuals with a fixed surface, source rect and destination rect,
and the base-class `getRenderingAlpha`. -/
def fixedVirtuals (surface : Option Surface) (src dst : Rect) : Virtuals :=
  ⟨fun _ => surface, fun _ => src, fun _ => dst, getRenderingAlpha⟩

/-- An owner that declares the clip rectangle `[x1,y1]-[x2,y2]`, alpha 255. -/
def clippedOwner (x1 y1 x2 y2 : Int) : GraphicsObject :=
  ⟨0, true, x1, y1, x2, y2, 255⟩

/-! ## The animation lifecycle (lines 117-142) -/

/-- The enumeration `GraphicsObjectData::AfterAnimation`. -/
inductive AfterAnimation where
  | AFTER_NONE
  | AFTER_CLEAR
  | AFTER_LOOP
  deriving DecidableEq, Repr

/-- The data members of `GraphicsObjectData`, as the constructors initialise
them (lines 44-53).  `owned_by_` is a `GraphicsObject*`: `none` is `NULL`,
`some n` points to the owner with identity `n`. -/
structure GraphicsObjectData where
  after_animation_ : AfterAnimation
  owned_by_ : Option Nat
  currently_playing_ : Bool
  deriving DecidableEq, Repr

/-- Modelled from the spec: the accessor `afterAnimation()`, declared in
`GraphicsObjectData.hpp` (not among the sources); `endAnimation` "dispatches on
the after-animation policy", the member `after_animation_`. -/
def GraphicsObjectData.afterAnimation (d : GraphicsObjectData) : AfterAnimation :=
  d.after_animation_

/-- Modelled from the spec: the accessor `ownedBy()`, declared in
`GraphicsObjectData.hpp` (not among the sources); it yields the "non-owning
back-reference to the owning object", the member `owned_by_`. -/
def GraphicsObjectData.ownedBy (d : GraphicsObjectData) : Option Nat :=
  d.owned_by_

/-- What `endAnimation` does, step by step: every access to a data member of
the object and every call that leaves the function. -/
inductive Effect where
  /-- The assignment `currently_playing_ = b`. -/
  | setCurrentlyPlaying (b : Bool)
  /-- The read `afterAnimation()`. -/
  | getAfterAnimation
  /-- The read `ownedBy()`. -/
  | getOwnedBy
  /-- The call `deleteObject()` on the owner with the given identity. -/
  | callDeleteObject (owner : Nat)
  /-- The virtual call `loopAnimation()`. -/
  | callLoopAnimation
  deriving DecidableEq, Repr

/-- The ways a member function can go wrong. -/
inductive Fault where
  /-- A call through a `NULL` pointer. -/
  | nullDereference
  deriving DecidableEq, Repr

/-- The outcome of `endAnimation`: the data members as the function last wrote
them, and its effects in order. -/
structure EndResult where
  obj : GraphicsObjectData
  effects : List Effect
  deriving DecidableEq, Repr

/-- `GraphicsObjectData::loopAnimation` (line 117): the base class does
nothing. -/
def loopAnimation (d : GraphicsObjectData) : GraphicsObjectData := d

/-- The member call `p->deleteObject()` through the pointer `p`. -/
def callDeleteObject (p : Option Nat) : Except Fault Effect :=
  match p with
  | none => .error .nullDereference
  | some owner => .ok (.callDeleteObject owner)

/-- `GraphicsObjectData::endAnimation` (lines 121-142).  `loop` is the body the
virtual call `loopAnimation()` dispatches to. -/
def endAnimation (loop : GraphicsObjectData → GraphicsObjectData)
    (d : GraphicsObjectData) : Except Fault EndResult :=
  let d1 : GraphicsObjectData := { d with currently_playing_ := false }
  let log1 : List Effect := [.setCurrentlyPlaying false, .getAfterAnimation]
  match d1.afterAnimation with
  | .AFTER_NONE => .ok ⟨d1, log1⟩
  | .AFTER_CLEAR =>
    if (d1.ownedBy).isSome then
      match callDeleteObject d1.ownedBy with
      | .error f => .error f
      | .ok e => .ok ⟨d1, log1 ++ [.getOwnedBy, .getOwnedBy, e]⟩
    else .ok ⟨d1, log1 ++ [.getOwnedBy]⟩
  | .AFTER_LOOP =>
    let d2 : GraphicsObjectData := { d1 with currently_playing_ := true }
    .ok ⟨loop d2, log1 ++ [.setCurrentlyPlaying true, .callLoopAnimation]⟩

/-- The default constructor `GraphicsObjectData::GraphicsObjectData()`
(lines 44-46). -/
def GraphicsObjectData.default : GraphicsObjectData :=
  ⟨AfterAnimation.AFTER_NONE, none, false⟩

/-- The copy constructor `GraphicsObjectData(const GraphicsObjectData& obj)`
(lines 50-53): the object it constructs.  The source `obj` is a reference to
`const` and is only read. -/
def GraphicsObjectData.copy (obj : GraphicsObjectData) : GraphicsObjectData :=
  ⟨obj.after_animation_, none, obj.currently_playing_⟩

/-! ## Frame counters (`src/Systems/Base/FrameCounter.hpp`)

The header declares the classes and their data members; the bodies of the
`readFrame` functions are in `FrameCounter.cpp`, which is not among the
sources. -/

/-- The data members of `FrameCounter` that the header declares (`m_value`,
`m_minValue`, `m_maxValue`, `m_isActive`), and the duration `milliseconds` of
one full ramp that the constructor receives. -/
structure FrameCounter where
  m_value : Int
  m_minValue : Int
  m_maxValue : Int
  m_isActive : Bool
  milliseconds : Nat
  deriving DecidableEq, Repr

/-- Modelled from the spec: the constructor
`FrameCounter(es, frameMin, frameMax, milliseconds)`, whose body is in
`FrameCounter.cpp` (not among the sources).  A counter is created for a timed
operation: it starts at `frameMin` and is active. -/
def FrameCounter.create (frameMin frameMax : Int) (milliseconds : Nat) : FrameCounter :=
  ⟨frameMin, frameMin, frameMax, true, milliseconds⟩

/-- Modelled from the spec: the "linear ramp frameMin→frameMax over
`milliseconds`" at elapsed active time `t`, as an `int` (rounded down). -/
def FrameCounter.ramp (fc : FrameCounter) (t : Nat) : Int :=
  fc.m_minValue + (fc.m_maxValue - fc.m_minValue) * (t : Int) / (fc.milliseconds : Int)

/-- Modelled from the spec: `SimpleFrameCounter::readFrame`, whose body is in
`FrameCounter.cpp` (not among the sources), at elapsed active time `t`: "linear
ramp frameMin→frameMax over `milliseconds`; clamps at frameMax once
t ≥ milliseconds", "deactivates at frameMax"; an inactive counter "returns a
fixed value".  The result is the value returned and the counter afterwards. -/
def SimpleFrameCounter.readFrame (fc : FrameCounter) (t : Nat) : Int × FrameCounter :=
  if fc.m_isActive then
    if fc.milliseconds ≤ t then
      (fc.m_maxValue, { fc with m_value := fc.m_maxValue, m_isActive := false })
    else
      (fc.ramp t, { fc with m_value := fc.ramp t })
  else (fc.m_value, fc)

/-- Modelled from the spec: `LoopFrameCounter::readFrame`, whose body is in
`FrameCounter.cpp` (not among the sources), at elapsed active time `t`: "linear
ramp frameMin→frameMax over `milliseconds`, then wraps to frameMin and repeats
with period `milliseconds`"; not terminal.  The result is the value returned
and the counter afterwards. -/
def LoopFrameCounter.readFrame (fc : FrameCounter) (t : Nat) : Int × FrameCounter :=
  if fc.m_isActive then
    (fc.ramp (t % fc.milliseconds), { fc with m_value := fc.ramp (t % fc.milliseconds) })
  else (fc.m_value, fc)

/-! ## Codepages (`src/Encodings/codepage.cpp`)

A C string is embedded as the list of the bytes at the pointer; the byte after
the list is the terminating NUL.  `unsigned char`, `unsigned short` and
`unsigned int` values are `Nat`, reduced modulo `2^8` and `2^16` where the
source converts. -/

/-- `strlen(src)`: the number of bytes before the first NUL. -/
def strlen (src : List Nat) : Nat :=
  (src.takeWhile (fun b => b % 256 != 0)).length

/-- `(unsigned char) src[i]`; the byte after the list is the terminating NUL. -/
def charAt (src : List Nat) (i : Nat) : Nat :=
  src.getD i 0 % 256

/-- `Codepage::JisDecode` (lines 53-55): the base class maps every character to
itself. -/
def Codepage.JisDecode (ch : Nat) : Nat := ch

/-- The lead-byte test of line 65:
`(c1 >= 0x81 && c1 < 0xa0) || (c1 >= 0xe0 && c1 < 0xf0)`. -/
def isLeadByte (c1 : Nat) : Bool :=
  (decide (c1 ≥ 0x81) && decide (c1 < 0xa0)) || (decide (c1 ≥ 0xe0) && decide (c1 < 0xf0))

/-- The local variables `i`, `j` of `JisDecodeString` and the stores into `buf`
so far, each as the pair (index, byte), in order. -/
structure DecodeState where
  i : Nat
  j : Nat
  writes : List (Nat × Nat)
  deriving DecidableEq, Repr

/-- One pass through the body of the `while` loop (lines 64-73).  `jisDecode`
is the body the virtual call `JisDecode(c1)` dispatches to; its parameter and
its result are `unsigned short`. -/
def decodeStep (jisDecode : Nat → Nat) (src : List Nat) (st : DecodeState) : DecodeState :=
  let c1 := charAt src st.i
  let i1 := st.i + 1
  let c1i : Nat × Nat :=
    if isLeadByte c1 then ((c1 <<< 8) ||| charAt src i1, i1 + 1) else (c1, i1)
  let c2 := jisDecode (c1i.1 % 65536) % 65536
  if c2 ≤ 0xff then
    ⟨c1i.2, st.j + 1, st.writes ++ [(st.j, c2)]⟩
  else
    ⟨c1i.2, st.j + 2, st.writes ++ [(st.j, (c2 >>> 8) &&& 0xff), (st.j + 1, c2 &&& 0xff)]⟩

/-- The `while` loop of lines 63-74, run for at most `fuel` passes: `none` when
the fuel runs out before the loop condition fails. -/
def decodeLoop (jisDecode : Nat → Nat) (src : List Nat) (srclen buflen : Nat) :
    Nat → DecodeState → Option DecodeState
  | fuel, st =>
    if st.i < srclen ∧ st.j < buflen then
      match fuel with
      | 0 => none
      | fuel + 1 => decodeLoop jisDecode src srclen buflen fuel (decodeStep jisDecode src st)
    else some st

/-- `Codepage::JisDecodeString(src, buf, buflen)` (lines 61-76): all stores
into `buf`, in order, the terminating NUL of line 75 last.  Every pass of the
loop advances `i`, so `strlen(src)` passes are enough. -/
def JisDecodeString (jisDecode : Nat → Nat) (src : List Nat) (buflen : Nat) :
    Option (List (Nat × Nat)) :=
  match decodeLoop jisDecode src (strlen src) buflen (strlen src) ⟨0, 0, []⟩ with
  | none => none
  | some st => some (st.writes ++ [(st.j, 0)])

/-- The reading of "every lead byte is followed by a trail byte": scanning from
the left, the byte after a lead byte is its trail byte (whatever its value),
and the string does not end on a lead byte.  `pending` says that the previous
byte was a lead byte. -/
def leadsHaveTrail : Bool → List Nat → Bool
  | pending, [] => !pending
  | true, _ :: rest => leadsHaveTrail false rest
  | false, c :: rest => leadsHaveTrail (isLeadByte c) rest

/-- The concrete codepage classes `Cp::instance` creates. -/
inductive CodepageKind where
  | Cp932
  | Cp936
  | Cp949
  | Cp1252
  deriving DecidableEq, Repr

/-- A codepage object on the heap: its class and the number of the `new` that
created it. -/
structure CodepageObject where
  kind : CodepageKind
  serial : Nat
  deriving DecidableEq, Repr

/-- The static members of `Cp` (lines 85-87) and the number of codepage objects
created so far.  `instance_` is a `boost::scoped_ptr<Codepage>`, `none` when
empty. -/
structure CpState where
  instance_ : Option CodepageObject
  codepage : Int
  created : Nat
  deriving DecidableEq, Repr

/-- The state at program start: `instance_` empty, `codepage = -1`. -/
def Cp.initial : CpState := ⟨none, -1, 0⟩

/-- The `switch` of lines 94-106: the class created for `desired`. -/
def Cp.kindFor (desired : Int) : CodepageKind :=
  if desired = 1 then CodepageKind.Cp936
  else if desired = 2 then CodepageKind.Cp1252
  else if desired = 3 then CodepageKind.Cp949
  else CodepageKind.Cp932

/-- The dereference `*instance_` of line 108. -/
def Cp.deref (p : Option CodepageObject) : Except Fault CodepageObject :=
  match p with
  | none => .error .nullDereference
  | some c => .ok c

/-- `Cp::instance(desired)` (lines 90-109): the object returned and the state
afterwards.  (`instance` is a keyword of Lean, hence the name.) -/
def Cp.getInstance (s : CpState) (desired : Int) : Except Fault (CodepageObject × CpState) :=
  let s1 : CpState :=
    if desired ≠ s.codepage then
      ⟨some ⟨Cp.kindFor desired, s.created⟩, desired, s.created + 1⟩
    else s
  match Cp.deref s1.instance_ with
  | .error f => .error f
  | .ok c => .ok (c, s1)

/-- The states of `Cp` that a program can reach: the initial state, and the
state after any call of `Cp::instance` that returned. -/
inductive Cp.Reachable : CpState → Prop where
  | initial : Cp.Reachable Cp.initial
  | call (s : CpState) (desired : Int) (c : CodepageObject) (s1 : CpState) :
      Cp.Reachable s → Cp.getInstance s desired = .ok (c, s1) → Cp.Reachable s1

/-! ## Lemmas on the clipping step -/

theorem rejects_eq_false_iff (go : GraphicsObject) (dst : Rect) :
    rejects go dst = false ↔
      go.clipX1 ≤ dst.x2 ∧ dst.x ≤ go.clipX2 ∧ go.clipY1 ≤ dst.y2 ∧ dst.y ≤ go.clipY2 := by
  simp [rejects, not_or]
  tauto

theorem rejects_eq_true_iff (go : GraphicsObject) (dst : Rect) :
    rejects go dst = true ↔
      (dst.x2 < go.clipX1 ∨ dst.x > go.clipX2 ∨ dst.y2 < go.clipY1 ∨ dst.y > go.clipY2) := by
  simp [rejects]
  tauto

/-- With a surface and a clip rectangle, the composite calls of `render` are
decided by the clipping step alone. -/
theorem render_composites_of_clip (v : Virtuals) (go : GraphicsObject) (tree : Bool)
    (surface : Surface) (hs : v.currentSurface go = some surface)
    (hc : go.hasClip = true) :
    (render v go tree).composites =
      match clipRects go (v.srcRect go) (v.dstRect go) with
      | none => []
      | some p => [⟨surface, go, p.1, p.2, v.getRenderingAlpha go⟩] := by
  unfold render
  rw [hs]
  simp only [hc, if_true]
  cases clipRects go (v.srcRect go) (v.dstRect go) with
  | none => rfl
  | some p => rfl

theorem clipLeft_eq (go : GraphicsObject) (s d : Rect) :
    clipLeft go (s, d) =
      (⟨s.x + (max d.x go.clipX1 - d.x), s.y, s.x2, s.y2⟩,
        ⟨max d.x go.clipX1, d.y, d.x2, d.y2⟩) := by
  obtain ⟨sx, sy, sx2, sy2⟩ := s
  obtain ⟨dx, dy, dx2, dy2⟩ := d
  unfold clipLeft Rect.setX
  simp only [max_def, min_def]
  split_ifs <;> simp only [Prod.mk.injEq, Rect.mk.injEq, and_true, true_and] <;> omega

theorem clipTop_eq (go : GraphicsObject) (s d : Rect) :
    clipTop go (s, d) =
      (⟨s.x, s.y + (max d.y go.clipY1 - d.y), s.x2, s.y2⟩,
        ⟨d.x, max d.y go.clipY1, d.x2, d.y2⟩) := by
  obtain ⟨sx, sy, sx2, sy2⟩ := s
  obtain ⟨dx, dy, dx2, dy2⟩ := d
  unfold clipTop Rect.setY
  simp only [max_def, min_def]
  split_ifs <;> simp only [Prod.mk.injEq, Rect.mk.injEq, and_true, true_and] <;> omega

theorem clipRight_eq (go : GraphicsObject) (s d : Rect) :
    clipRight go (s, d) =
      (⟨s.x, s.y, s.x2 + (min d.x2 go.clipX2 - d.x2), s.y2⟩,
        ⟨d.x, d.y, min d.x2 go.clipX2, d.y2⟩) := by
  obtain ⟨sx, sy, sx2, sy2⟩ := s
  obtain ⟨dx, dy, dx2, dy2⟩ := d
  unfold clipRight Rect.setX2
  simp only [max_def, min_def]
  split_ifs <;> simp only [Prod.mk.injEq, Rect.mk.injEq, and_true, true_and] <;> omega

theorem clipBottom_eq (go : GraphicsObject) (s d : Rect) :
    clipBottom go (s, d) =
      (⟨s.x, s.y, s.x2, s.y2 + (min d.y2 go.clipY2 - d.y2)⟩,
        ⟨d.x, d.y, d.x2, min d.y2 go.clipY2⟩) := by
  obtain ⟨sx, sy, sx2, sy2⟩ := s
  obtain ⟨dx, dy, dx2, dy2⟩ := d
  unfold clipBottom Rect.setY2
  simp only [max_def, min_def]
  split_ifs <;> simp only [Prod.mk.injEq, Rect.mk.injEq, and_true, true_and] <;> omega

/-- The four adjustments in closed form: the destination is cut to the clip
bounds edge by edge and every source edge moves along. -/
theorem clipAdjust_eq (go : GraphicsObject) (src dst : Rect) :
    clipAdjust go (src, dst) =
      (⟨src.x + (max dst.x go.clipX1 - dst.x), src.y + (max dst.y go.clipY1 - dst.y),
          src.x2 + (min dst.x2 go.clipX2 - dst.x2), src.y2 + (min dst.y2 go.clipY2 - dst.y2)⟩,
        ⟨max dst.x go.clipX1, max dst.y go.clipY1,
          min dst.x2 go.clipX2, min dst.y2 go.clipY2⟩) := by
  unfold clipAdjust
  rw [clipLeft_eq, clipTop_eq, clipRight_eq, clipBottom_eq]

/-- The result of the clipping step in closed form. -/
theorem clipRects_of_not_rejects (go : GraphicsObject) (src dst : Rect)
    (h : rejects go dst = false) :
    clipRects go src dst =
      some (⟨src.x + (max dst.x go.clipX1 - dst.x), src.y + (max dst.y go.clipY1 - dst.y),
              src.x2 + (min dst.x2 go.clipX2 - dst.x2), src.y2 + (min dst.y2 go.clipY2 - dst.y2)⟩,
            ⟨max dst.x go.clipX1, max dst.y go.clipY1,
              min dst.x2 go.clipX2, min dst.y2 go.clipY2⟩) := by
  unfold clipRects
  rw [h]
  simp only [Bool.false_eq_true, if_false, Option.some.injEq]
  exact clipAdjust_eq go src dst

/-- With a surface and a clip rectangle, a destination that passes the
rejection test is composited exactly once, in the closed form of the clipping
step. -/
theorem render_composites_of_not_rejects (v : Virtuals) (go : GraphicsObject) (tree : Bool)
    (surface : Surface) (hs : v.currentSurface go = some surface)
    (hc : go.hasClip = true) (hr : rejects go (v.dstRect go) = false) :
    (render v go tree).composites =
      [⟨surface, go,
        ⟨(v.srcRect go).x + (max (v.dstRect go).x go.clipX1 - (v.dstRect go).x),
          (v.srcRect go).y + (max (v.dstRect go).y go.clipY1 - (v.dstRect go).y),
          (v.srcRect go).x2 + (min (v.dstRect go).x2 go.clipX2 - (v.dstRect go).x2),
          (v.srcRect go).y2 + (min (v.dstRect go).y2 go.clipY2 - (v.dstRect go).y2)⟩,
        ⟨max (v.dstRect go).x go.clipX1, max (v.dstRect go).y go.clipY1,
          min (v.dstRect go).x2 go.clipX2, min (v.dstRect go).y2 go.clipY2⟩,
        v.getRenderingAlpha go⟩] := by
  rw [render_composites_of_clip v go tree surface hs hc, clipRects_of_not_rejects go _ _ hr]

/-! ## Claims on clipping -/

/-- C1: with a resolvable surface and a declared clip rectangle, `render` makes
no composite call when the destination rect lies wholly outside the clip bounds
(`D.x2 < clipX1`, `D.x > clipX2`, `D.y2 < clipY1` or `D.y > clipY2`), and
exactly one composite call otherwise. -/
theorem render_clip_composite_count (v : Virtuals) (go : GraphicsObject) (tree : Bool)
    (surface : Surface) (hs : v.currentSurface go = some surface)
    (hc : go.hasClip = true) :
    (((v.dstRect go).x2 < go.clipX1 ∨ (v.dstRect go).x > go.clipX2 ∨
        (v.dstRect go).y2 < go.clipY1 ∨ (v.dstRect go).y > go.clipY2) →
      (render v go tree).composites.length = 0) ∧
    (¬ ((v.dstRect go).x2 < go.clipX1 ∨ (v.dstRect go).x > go.clipX2 ∨
        (v.dstRect go).y2 < go.clipY1 ∨ (v.dstRect go).y > go.clipY2) →
      (render v go tree).composites.length = 1) := by
  constructor
  · intro h
    have hr : rejects go (v.dstRect go) = true := (rejects_eq_true_iff _ _).2 h
    rw [render_composites_of_clip v go tree surface hs hc]
    simp [clipRects, hr]
  · intro h
    have hr : rejects go (v.dstRect go) = false := by
      cases hb : rejects go (v.dstRect go) with
      | false => rfl
      | true => exact absurd ((rejects_eq_true_iff _ _).1 hb) h
    rw [render_composites_of_not_rejects v go tree surface hs hc hr]
    rfl

/-- Witness for C1: clip `[10,10]-[50,50]`, destination `[0,0,40,40]` is
composited once. -/
theorem render_clip_composite_count_witness :
    (fixedVirtuals (some ⟨7⟩) ⟨0, 0, 100, 100⟩ ⟨0, 0, 40, 40⟩).currentSurface
        (clippedOwner 10 10 50 50) = some ⟨7⟩ ∧
      (clippedOwner 10 10 50 50).hasClip = true ∧
      (render (fixedVirtuals (some ⟨7⟩) ⟨0, 0, 100, 100⟩ ⟨0, 0, 40, 40⟩)
        (clippedOwner 10 10 50 50) false).composites.length = 1 :=
  ⟨rfl, rfl,
    (render_clip_composite_count (fixedVirtuals (some ⟨7⟩) ⟨0, 0, 100, 100⟩ ⟨0, 0, 40, 40⟩)
      (clippedOwner 10 10 50 50) false ⟨7⟩ rfl rfl).2 (by decide)⟩

/-- C2 as stated fails: the destination `[20,20,5,5]` satisfies the four
"inside" inequalities against the clip `[10,10]-[50,50]`, yet its right edge is
left of `clipX1`, so `render` rejects it and composites nothing. -/
theorem render_inside_inverted_dst_not_composited :
    ((clippedOwner 10 10 50 50).clipX1 ≤ (Rect.mk 20 20 5 5).x ∧
      (clippedOwner 10 10 50 50).clipY1 ≤ (Rect.mk 20 20 5 5).y ∧
      (Rect.mk 20 20 5 5).x2 ≤ (clippedOwner 10 10 50 50).clipX2 ∧
      (Rect.mk 20 20 5 5).y2 ≤ (clippedOwner 10 10 50 50).clipY2) ∧
    (render (fixedVirtuals (some ⟨7⟩) ⟨0, 0, 100, 100⟩ ⟨20, 20, 5, 5⟩)
      (clippedOwner 10 10 50 50) false).composites = [] := by
  decide

/-- C2 (amended): with a surface and a clip rectangle, a destination rect of
non-negative width and height that lies fully inside the clip bounds (edges may
coincide with the bounds) is composited exactly once, with the unclipped source
and destination rects. -/
theorem render_inside_unclipped (v : Virtuals) (go : GraphicsObject) (tree : Bool)
    (surface : Surface) (hs : v.currentSurface go = some surface)
    (hc : go.hasClip = true)
    (hx1 : go.clipX1 ≤ (v.dstRect go).x) (hy1 : go.clipY1 ≤ (v.dstRect go).y)
    (hx2 : (v.dstRect go).x2 ≤ go.clipX2) (hy2 : (v.dstRect go).y2 ≤ go.clipY2)
    (hw : (v.dstRect go).x ≤ (v.dstRect go).x2) (hh : (v.dstRect go).y ≤ (v.dstRect go).y2) :
    (render v go tree).composites =
      [⟨surface, go, v.srcRect go, v.dstRect go, v.getRenderingAlpha go⟩] := by
  have hr : rejects go (v.dstRect go) = false :=
    (rejects_eq_false_iff _ _).2 ⟨by omega, by omega, by omega, by omega⟩
  rw [render_composites_of_not_rejects v go tree surface hs hc hr]
  generalize v.srcRect go = S at *
  generalize v.dstRect go = D at *
  obtain ⟨sx, sy, sx2, sy2⟩ := S
  obtain ⟨dx, dy, dx2, dy2⟩ := D
  simp only [max_def, min_def] at *
  simp only [List.cons.injEq, CompositeCall.mk.injEq, Rect.mk.injEq, and_true, true_and]
  split_ifs <;> omega

/-- Witness for the amended C2: the destination `[10,10,50,50]` coincides with
the clip `[10,10]-[50,50]` on all four edges and is composited unchanged. -/
theorem render_inside_unclipped_witness :
    (render (fixedVirtuals (some ⟨7⟩) ⟨0, 0, 100, 100⟩ ⟨10, 10, 50, 50⟩)
      (clippedOwner 10 10 50 50) true).composites =
      [⟨⟨7⟩, clippedOwner 10 10 50 50, ⟨0, 0, 100, 100⟩, ⟨10, 10, 50, 50⟩, 255⟩] :=
  render_inside_unclipped (fixedVirtuals (some ⟨7⟩) ⟨0, 0, 100, 100⟩ ⟨10, 10, 50, 50⟩)
    (clippedOwner 10 10 50 50) true ⟨7⟩ rfl rfl (by decide) (by decide) (by decide) (by decide)
    (by decide) (by decide)

/-- C3 as stated fails: against the clip bounds `x1 = 10`, `x2 = 5` (left bound
right of the right bound) the pair `([0,0,20,20], [0,0,20,20])` is not rejected
and is clipped to `([10,0,5,20], [10,0,5,20])`, and clipping that pair again
against the same bounds rejects it. -/
theorem clipRects_not_idempotent_inverted_clip :
    clipRects (clippedOwner 10 0 5 50) ⟨0, 0, 20, 20⟩ ⟨0, 0, 20, 20⟩ =
        some (⟨10, 0, 5, 20⟩, ⟨10, 0, 5, 20⟩) ∧
      clipRects (clippedOwner 10 0 5 50) ⟨10, 0, 5, 20⟩ ⟨10, 0, 5, 20⟩ = none := by
  decide

/-- C3 (amended): for clip bounds with `clipX1 ≤ clipX2` and `clipY1 ≤ clipY2`,
clipping is idempotent: when the clipping step does not reject `D` and yields
`(S1, D1)`, the same step applied to `(S1, D1)` does not reject and yields
`(S1, D1)` again. -/
theorem clipRects_idempotent (go : GraphicsObject) (S D S1 D1 : Rect)
    (hx : go.clipX1 ≤ go.clipX2) (hy : go.clipY1 ≤ go.clipY2)
    (h : clipRects go S D = some (S1, D1)) :
    clipRects go S1 D1 = some (S1, D1) := by
  cases hr : rejects go D with
  | true => simp [clipRects, hr] at h
  | false =>
    rw [clipRects_of_not_rejects go S D hr] at h
    simp only [Option.some.injEq, Prod.mk.injEq] at h
    obtain ⟨hS, hD⟩ := h
    have hb := (rejects_eq_false_iff go D).1 hr
    have hr1 : rejects go D1 = false := by
      rw [rejects_eq_false_iff, ← hD]
      simp only [max_def, min_def]
      split_ifs <;> omega
    rw [clipRects_of_not_rejects go S1 D1 hr1]
    subst hD
    obtain ⟨sx, sy, sx2, sy2⟩ := S1
    simp only [max_def, min_def] at *
    simp only [Option.some.injEq, Prod.mk.injEq, Rect.mk.injEq]
    split_ifs <;> omega

/-- Witness for the amended C3: the scenario clip `[10,10]-[50,50]`,
destination `[0,0,40,40]`, source `[0,0,100,100]`. -/
theorem clipRects_idempotent_witness :
    clipRects (clippedOwner 10 10 50 50) ⟨0, 0, 100, 100⟩ ⟨0, 0, 40, 40⟩ =
        some (⟨10, 10, 100, 100⟩, ⟨10, 10, 40, 40⟩) ∧
      clipRects (clippedOwner 10 10 50 50) ⟨10, 10, 100, 100⟩ ⟨10, 10, 40, 40⟩ =
        some (⟨10, 10, 100, 100⟩, ⟨10, 10, 40, 40⟩) :=
  ⟨by decide,
    clipRects_idempotent (clippedOwner 10 10 50 50) ⟨0, 0, 100, 100⟩ ⟨0, 0, 40, 40⟩
      ⟨10, 10, 100, 100⟩ ⟨10, 10, 40, 40⟩ (by decide) (by decide) (by decide)⟩

/-- C4: with a surface and a clip rectangle, a destination `D` that is not
rejected is composited once, as a pair `(S1, D1)` in which every edge of the
source rect has moved by the same amount as the same edge of the destination
rect: `S1.x - S.x = D1.x - D.x`, and likewise for `y`, `x2` and `y2`. -/
theorem render_clip_same_delta (v : Virtuals) (go : GraphicsObject) (tree : Bool)
    (surface : Surface) (hs : v.currentSurface go = some surface)
    (hc : go.hasClip = true) (hr : rejects go (v.dstRect go) = false) :
    ∃ S1 D1 : Rect,
      (render v go tree).composites = [⟨surface, go, S1, D1, v.getRenderingAlpha go⟩] ∧
      S1.x - (v.srcRect go).x = D1.x - (v.dstRect go).x ∧
      S1.y - (v.srcRect go).y = D1.y - (v.dstRect go).y ∧
      S1.x2 - (v.srcRect go).x2 = D1.x2 - (v.dstRect go).x2 ∧
      S1.y2 - (v.srcRect go).y2 = D1.y2 - (v.dstRect go).y2 := by
  refine ⟨_, _, render_composites_of_not_rejects v go tree surface hs hc hr, ?_, ?_, ?_, ?_⟩ <;>
    simp only [add_sub_cancel_left]

/-- Witness for C4: clip `[10,10]-[50,50]`, destination `[0,0,60,40]`: the left,
top and right edges move. -/
theorem render_clip_same_delta_witness :
    ∃ S1 D1 : Rect,
      (render (fixedVirtuals (some ⟨7⟩) ⟨0, 0, 100, 100⟩ ⟨0, 0, 60, 40⟩)
        (clippedOwner 10 10 50 50) false).composites =
          [⟨⟨7⟩, clippedOwner 10 10 50 50, S1, D1, 255⟩] ∧
      S1.x - 0 = D1.x - 0 ∧ S1.y - 0 = D1.y - 0 ∧
      S1.x2 - 100 = D1.x2 - 60 ∧ S1.y2 - 100 = D1.y2 - 40 :=
  render_clip_same_delta (fixedVirtuals (some ⟨7⟩) ⟨0, 0, 100, 100⟩ ⟨0, 0, 60, 40⟩)
    (clippedOwner 10 10 50 50) false ⟨7⟩ rfl rfl (by decide)

/-- C5: when the left and top edges of the destination `D` protrude
(`D.x < clipX1`, `D.y < clipY1`) and its far edges stay strictly inside the far
bounds (`clipX1 ≤ D.x2 < clipX2`, `clipY1 ≤ D.y2 < clipY2`), `render` composites
the destination `[clipX1, clipY1, D.x2, D.y2]` and the source
`[S.x + (clipX1 - D.x), S.y + (clipY1 - D.y), S.x2, S.y2]`. -/
theorem render_clip_near_edges (v : Virtuals) (go : GraphicsObject) (tree : Bool)
    (surface : Surface) (hs : v.currentSurface go = some surface)
    (hc : go.hasClip = true)
    (hx : (v.dstRect go).x < go.clipX1) (hy : (v.dstRect go).y < go.clipY1)
    (hx2l : go.clipX1 ≤ (v.dstRect go).x2) (hx2u : (v.dstRect go).x2 < go.clipX2)
    (hy2l : go.clipY1 ≤ (v.dstRect go).y2) (hy2u : (v.dstRect go).y2 < go.clipY2) :
    (render v go tree).composites =
      [⟨surface, go,
        ⟨(v.srcRect go).x + (go.clipX1 - (v.dstRect go).x),
          (v.srcRect go).y + (go.clipY1 - (v.dstRect go).y),
          (v.srcRect go).x2, (v.srcRect go).y2⟩,
        ⟨go.clipX1, go.clipY1, (v.dstRect go).x2, (v.dstRect go).y2⟩,
        v.getRenderingAlpha go⟩] := by
  have hr : rejects go (v.dstRect go) = false :=
    (rejects_eq_false_iff _ _).2 ⟨by omega, by omega, by omega, by omega⟩
  rw [render_composites_of_not_rejects v go tree surface hs hc hr]
  generalize v.srcRect go = S at *
  generalize v.dstRect go = D at *
  simp only [max_def, min_def]
  simp only [List.cons.injEq, CompositeCall.mk.injEq, Rect.mk.injEq, and_true, true_and]
  split_ifs <;> omega

/-- Witness for C5, the scenario of the spec: clip `[10,10,50,50]`, destination
`[0,0,40,40]`, source `[0,0,100,100]` give destination `[10,10,40,40]` and source
`[10,10,100,100]`. -/
theorem render_clip_near_edges_witness :
    (render (fixedVirtuals (some ⟨7⟩) ⟨0, 0, 100, 100⟩ ⟨0, 0, 40, 40⟩)
      (clippedOwner 10 10 50 50) false).composites =
      [⟨⟨7⟩, clippedOwner 10 10 50 50, ⟨10, 10, 100, 100⟩, ⟨10, 10, 40, 40⟩, 255⟩] :=
  render_clip_near_edges (fixedVirtuals (some ⟨7⟩) ⟨0, 0, 100, 100⟩ ⟨0, 0, 40, 40⟩)
    (clippedOwner 10 10 50 50) false ⟨7⟩ rfl rfl (by decide) (by decide) (by decide) (by decide)
    (by decide) (by decide)

/-- C6 as stated fails: against the clip bounds `x1 = 10`, `x2 = 5` the
destination `[0,0,20,20]` (of positive width) is not rejected, and `render`
passes the destination `[10,10,5,20]`, of negative width, to the composite
call. -/
theorem render_composites_negative_width :
    (render (fixedVirtuals (some ⟨7⟩) ⟨0, 0, 20, 20⟩ ⟨0, 0, 20, 20⟩)
      (clippedOwner 10 10 5 50) false).composites =
      [⟨⟨7⟩, clippedOwner 10 10 5 50, ⟨10, 10, 5, 20⟩, ⟨10, 10, 5, 20⟩, 255⟩] ∧
    (Rect.mk 10 10 5 20).x2 < (Rect.mk 10 10 5 20).x := by
  decide

/-- C6 (amended): with a surface, a clip rectangle with `clipX1 ≤ clipX2` and
`clipY1 ≤ clipY2`, and a destination rect of non-negative width and height,
every destination rect passed to the composite call has non-negative width and
height, and whenever the four clip adjustments would leave the destination with
`x2 < x` or `y2 < y`, `render` makes no composite call. -/
theorem render_composites_nonneg_size (v : Virtuals) (go : GraphicsObject) (tree : Bool)
    (surface : Surface) (hs : v.currentSurface go = some surface)
    (hc : go.hasClip = true)
    (hx : go.clipX1 ≤ go.clipX2) (hy : go.clipY1 ≤ go.clipY2)
    (hw : (v.dstRect go).x ≤ (v.dstRect go).x2) (hh : (v.dstRect go).y ≤ (v.dstRect go).y2) :
    (∀ c ∈ (render v go tree).composites, c.dst.x ≤ c.dst.x2 ∧ c.dst.y ≤ c.dst.y2) ∧
    (((clipAdjust go (v.srcRect go, v.dstRect go)).2.x2 <
          (clipAdjust go (v.srcRect go, v.dstRect go)).2.x ∨
        (clipAdjust go (v.srcRect go, v.dstRect go)).2.y2 <
          (clipAdjust go (v.srcRect go, v.dstRect go)).2.y) →
      (render v go tree).composites = []) := by
  cases hr : rejects go (v.dstRect go) with
  | true =>
    have h0 : (render v go tree).composites = [] := by
      rw [render_composites_of_clip v go tree surface hs hc]
      simp [clipRects, hr]
    rw [h0]
    exact ⟨fun c hcm => absurd hcm (List.not_mem_nil c), fun _ => rfl⟩
  | false =>
    have hb := (rejects_eq_false_iff go (v.dstRect go)).1 hr
    constructor
    · intro c hcm
      rw [render_composites_of_not_rejects v go tree surface hs hc hr] at hcm
      rw [List.mem_singleton] at hcm
      subst hcm
      simp only [max_def, min_def]
      split_ifs <;> omega
    · intro hinv
      exfalso
      rw [clipAdjust_eq] at hinv
      simp only [max_def, min_def] at hinv
      split_ifs at hinv <;> omega

/-- Witness for the amended C6: clip `[10,10]-[50,50]`, destination
`[0,0,60,40]`. -/
theorem render_composites_nonneg_size_witness :
    ((clippedOwner 10 10 50 50).clipX1 ≤ (clippedOwner 10 10 50 50).clipX2 ∧
      (clippedOwner 10 10 50 50).clipY1 ≤ (clippedOwner 10 10 50 50).clipY2 ∧
      (Rect.mk 0 0 60 40).x ≤ (Rect.mk 0 0 60 40).x2 ∧
      (Rect.mk 0 0 60 40).y ≤ (Rect.mk 0 0 60 40).y2) ∧
    ∀ c ∈ (render (fixedVirtuals (some ⟨7⟩) ⟨0, 0, 100, 100⟩ ⟨0, 0, 60, 40⟩)
        (clippedOwner 10 10 50 50) false).composites,
      c.dst.x ≤ c.dst.x2 ∧ c.dst.y ≤ c.dst.y2 :=
  ⟨by decide,
    (render_composites_nonneg_size (fixedVirtuals (some ⟨7⟩) ⟨0, 0, 100, 100⟩ ⟨0, 0, 60, 40⟩)
      (clippedOwner 10 10 50 50) false ⟨7⟩ rfl rfl (by decide) (by decide) (by decide)
      (by decide)).1⟩

/-- C7: with a surface and a clip rectangle, a destination that is not rejected
is composited once and the destination rect `D1` passed to the composite call
satisfies `clipX1 ≤ D1.x`, `clipY1 ≤ D1.y`, `D1.x2 ≤ clipX2` and
`D1.y2 ≤ clipY2`. -/
theorem render_composite_within_clip (v : Virtuals) (go : GraphicsObject) (tree : Bool)
    (surface : Surface) (hs : v.currentSurface go = some surface)
    (hc : go.hasClip = true) (hr : rejects go (v.dstRect go) = false) :
    ∃ c : CompositeCall, (render v go tree).composites = [c] ∧
      go.clipX1 ≤ c.dst.x ∧ go.clipY1 ≤ c.dst.y ∧
      c.dst.x2 ≤ go.clipX2 ∧ c.dst.y2 ≤ go.clipY2 := by
  refine ⟨_, render_composites_of_not_rejects v go tree surface hs hc hr, ?_, ?_, ?_, ?_⟩
  · exact le_max_right _ _
  · exact le_max_right _ _
  · exact min_le_right _ _
  · exact min_le_right _ _

/-- Witness for C7: clip `[10,10]-[50,50]`, destination `[0,0,60,70]`. -/
theorem render_composite_within_clip_witness :
    ∃ c : CompositeCall,
      (render (fixedVirtuals (some ⟨7⟩) ⟨0, 0, 100, 100⟩ ⟨0, 0, 60, 70⟩)
        (clippedOwner 10 10 50 50) false).composites = [c] ∧
      (10 : Int) ≤ c.dst.x ∧ (10 : Int) ≤ c.dst.y ∧ c.dst.x2 ≤ 50 ∧ c.dst.y2 ≤ 50 :=
  render_composite_within_clip (fixedVirtuals (some ⟨7⟩) ⟨0, 0, 100, 100⟩ ⟨0, 0, 60, 70⟩)
    (clippedOwner 10 10 50 50) false ⟨7⟩ rfl rfl (by decide)

/-! ## Claims on the animation lifecycle -/

/-- C8: under the LOOP policy, whatever the prior playing flag and the owner,
`endAnimation` completes, invokes `loopAnimation` exactly once, requests no
deletion, and finishes with the currently-playing flag true.  For any body the
virtual call may dispatch to, the call is made exactly once, on the object with
the flag already set to true. -/
theorem endAnimation_loop (d : GraphicsObjectData)
    (h : d.after_animation_ = AfterAnimation.AFTER_LOOP) :
    (∃ r : EndResult, endAnimation loopAnimation d = Except.ok r ∧
      r.effects.count Effect.callLoopAnimation = 1 ∧
      (∀ o : Nat, Effect.callDeleteObject o ∉ r.effects) ∧
      r.obj.currently_playing_ = true) ∧
    (∀ loop : GraphicsObjectData → GraphicsObjectData,
      ∃ r : EndResult, endAnimation loop d = Except.ok r ∧
        r.effects.count Effect.callLoopAnimation = 1 ∧
        (∀ o : Nat, Effect.callDeleteObject o ∉ r.effects) ∧
        r.obj = loop { d with currently_playing_ := true }) := by
  obtain ⟨a, o, b⟩ := d
  simp only at h
  subst h
  refine ⟨⟨_, rfl, rfl, ?_, rfl⟩, fun loop => ⟨_, rfl, rfl, ?_, rfl⟩⟩ <;>
    intro o1 <;> simp

/-- Witness for C8: a LOOP object that is not playing and has an owner. -/
theorem endAnimation_loop_witness :
    ∃ r : EndResult,
      endAnimation loopAnimation ⟨AfterAnimation.AFTER_LOOP, some 3, false⟩ = Except.ok r ∧
      r.effects.count Effect.callLoopAnimation = 1 ∧
      (∀ o : Nat, Effect.callDeleteObject o ∉ r.effects) ∧
      r.obj.currently_playing_ = true :=
  (endAnimation_loop ⟨AfterAnimation.AFTER_LOOP, some 3, false⟩ rfl).1

/-- C9: under the CLEAR policy with an owner attached, `endAnimation` completes,
requests the deletion of that owner exactly once, sets the currently-playing
flag to false before the request, never invokes `loopAnimation`, and the
deletion request is its last effect: no read or write of the object follows
it. -/
theorem endAnimation_clear_owned (loop : GraphicsObjectData → GraphicsObjectData)
    (d : GraphicsObjectData) (owner : Nat)
    (h : d.after_animation_ = AfterAnimation.AFTER_CLEAR)
    (ho : d.owned_by_ = some owner) :
    ∃ r : EndResult, endAnimation loop d = Except.ok r ∧
      r.effects.count (Effect.callDeleteObject owner) = 1 ∧
      (∀ o : Nat, Effect.callDeleteObject o ∈ r.effects → o = owner) ∧
      Effect.callLoopAnimation ∉ r.effects ∧
      ∃ before : List Effect,
        r.effects = before ++ [Effect.callDeleteObject owner] ∧
        Effect.setCurrentlyPlaying false ∈ before ∧
        Effect.setCurrentlyPlaying true ∉ before ∧
        (∀ o : Nat, Effect.callDeleteObject o ∉ before) := by
  obtain ⟨a, o, b⟩ := d
  simp only at h ho
  subst h ho
  refine ⟨_, rfl, ?_, ?_, ?_,
    [Effect.setCurrentlyPlaying false, Effect.getAfterAnimation, Effect.getOwnedBy,
      Effect.getOwnedBy], rfl, ?_, ?_, ?_⟩
  · simp
  · intro o1 ho1
    simpa using ho1
  · simp
  · simp
  · simp
  · intro o1
    simp

/-- Witness for C9: a playing CLEAR object owned by the object `3`. -/
theorem endAnimation_clear_owned_witness :
    ∃ r : EndResult,
      endAnimation loopAnimation ⟨AfterAnimation.AFTER_CLEAR, some 3, true⟩ = Except.ok r ∧
      r.effects.count (Effect.callDeleteObject 3) = 1 ∧
      (∀ o : Nat, Effect.callDeleteObject o ∈ r.effects → o = 3) ∧
      Effect.callLoopAnimation ∉ r.effects ∧
      ∃ before : List Effect,
        r.effects = before ++ [Effect.callDeleteObject 3] ∧
        Effect.setCurrentlyPlaying false ∈ before ∧
        Effect.setCurrentlyPlaying true ∉ before ∧
        (∀ o : Nat, Effect.callDeleteObject o ∉ before) :=
  endAnimation_clear_owned loopAnimation ⟨AfterAnimation.AFTER_CLEAR, some 3, true⟩ 3 rfl rfl

/-- C10 as stated fails: on a playing CLEAR object without an owner
`endAnimation` clears the currently-playing flag, so the state of the object is
not what it was. -/
theorem endAnimation_clear_unowned_changes_state :
    endAnimation loopAnimation ⟨AfterAnimation.AFTER_CLEAR, none, true⟩ =
        Except.ok ⟨⟨AfterAnimation.AFTER_CLEAR, none, false⟩,
          [Effect.setCurrentlyPlaying false, Effect.getAfterAnimation, Effect.getOwnedBy]⟩ ∧
      (⟨AfterAnimation.AFTER_CLEAR, none, false⟩ : GraphicsObjectData) ≠
        ⟨AfterAnimation.AFTER_CLEAR, none, true⟩ :=
  ⟨rfl, by decide⟩

/-- C10 (amended): under the CLEAR policy with no owner attached,
`endAnimation` is not a fault: it completes normally, requests no deletion,
invokes no `loopAnimation`, and leaves the after-animation policy and the owner
back-reference as they were; the currently-playing flag ends false, so the
state is unchanged exactly when the object was not playing. -/
theorem endAnimation_clear_unowned (loop : GraphicsObjectData → GraphicsObjectData)
    (d : GraphicsObjectData)
    (h : d.after_animation_ = AfterAnimation.AFTER_CLEAR)
    (ho : d.owned_by_ = none) :
    ∃ r : EndResult, endAnimation loop d = Except.ok r ∧
      (∀ o : Nat, Effect.callDeleteObject o ∉ r.effects) ∧
      Effect.callLoopAnimation ∉ r.effects ∧
      r.obj = { d with currently_playing_ := false } ∧
      (r.obj = d ↔ d.currently_playing_ = false) := by
  obtain ⟨a, o, b⟩ := d
  simp only at h ho
  subst h ho
  refine ⟨_, rfl, ?_, ?_, rfl, ?_⟩
  · intro o1
    simp
  · simp
  · cases b <;> simp

/-- Witness for the amended C10: a CLEAR object without an owner that is not
playing is left as it was. -/
theorem endAnimation_clear_unowned_witness :
    ∃ r : EndResult,
      endAnimation loopAnimation ⟨AfterAnimation.AFTER_CLEAR, none, false⟩ = Except.ok r ∧
      (∀ o : Nat, Effect.callDeleteObject o ∉ r.effects) ∧
      Effect.callLoopAnimation ∉ r.effects ∧
      r.obj = ⟨AfterAnimation.AFTER_CLEAR, none, false⟩ ∧
      (r.obj = ⟨AfterAnimation.AFTER_CLEAR, none, false⟩ ↔ false = false) :=
  endAnimation_clear_unowned loopAnimation ⟨AfterAnimation.AFTER_CLEAR, none, false⟩ rfl rfl

/-- C15: under the NONE policy `endAnimation` only stops the animation: it
completes, the currently-playing flag ends false, no deletion is requested and
`loopAnimation` is not invoked.  Under every policy `endAnimation` leaves the
after-animation policy and the owner back-reference as they were. -/
theorem endAnimation_none (d : GraphicsObjectData)
    (h : d.after_animation_ = AfterAnimation.AFTER_NONE) :
    (∀ loop : GraphicsObjectData → GraphicsObjectData,
      ∃ r : EndResult, endAnimation loop d = Except.ok r ∧
        r.obj.currently_playing_ = false ∧
        (∀ o : Nat, Effect.callDeleteObject o ∉ r.effects) ∧
        Effect.callLoopAnimation ∉ r.effects ∧
        Effect.setCurrentlyPlaying true ∉ r.effects) ∧
    (∀ e : GraphicsObjectData,
      ∃ r : EndResult, endAnimation loopAnimation e = Except.ok r ∧
        r.obj.after_animation_ = e.after_animation_ ∧
        r.obj.owned_by_ = e.owned_by_) := by
  constructor
  · intro loop
    obtain ⟨a, o, b⟩ := d
    simp only at h
    subst h
    refine ⟨_, rfl, rfl, ?_, ?_, ?_⟩
    · intro o1
      simp
    · simp
    · simp
  · intro e
    obtain ⟨a, o, b⟩ := e
    cases a with
    | AFTER_NONE => exact ⟨_, rfl, rfl, rfl⟩
    | AFTER_LOOP => exact ⟨_, rfl, rfl, rfl⟩
    | AFTER_CLEAR =>
      cases o with
      | none => exact ⟨_, rfl, rfl, rfl⟩
      | some owner => exact ⟨_, rfl, rfl, rfl⟩

/-- Witness for C15: a playing NONE object owned by the object `3`. -/
theorem endAnimation_none_witness :
    ∃ r : EndResult,
      endAnimation loopAnimation ⟨AfterAnimation.AFTER_NONE, some 3, true⟩ = Except.ok r ∧
      r.obj.currently_playing_ = false ∧
      (∀ o : Nat, Effect.callDeleteObject o ∉ r.effects) ∧
      Effect.callLoopAnimation ∉ r.effects ∧
      Effect.setCurrentlyPlaying true ∉ r.effects :=
  (endAnimation_none ⟨AfterAnimation.AFTER_NONE, some 3, true⟩ rfl).1 loopAnimation

/-! ## Claims on construction and on `render` as a whole -/

/-- C11: the copy constructor yields an object whose owner back-reference is
unowned (`NULL`) and whose after-animation policy and currently-playing flag
are those of the source, whether or not the source is owned. -/
theorem copy_is_unowned (obj : GraphicsObjectData) :
    (GraphicsObjectData.copy obj).owned_by_ = none ∧
    (GraphicsObjectData.copy obj).after_animation_ = obj.after_animation_ ∧
    (GraphicsObjectData.copy obj).currently_playing_ = obj.currently_playing_ :=
  ⟨rfl, rfl, rfl⟩

/-- C12: when `currentSurface` resolves to no surface, `render` makes no
composite call (and writes nothing to the debug stream), whether or not the
owner declares a clip rectangle and whether or not a debug stream is
supplied. -/
theorem render_without_surface (v : Virtuals) (go : GraphicsObject) (tree : Bool)
    (hs : v.currentSurface go = none) :
    (render v go tree).composites = [] ∧ (render v go tree).tree = [] := by
  unfold render
  rw [hs]
  exact ⟨rfl, rfl⟩

/-- Witness for C12: no surface, a clip rectangle declared, a debug stream
supplied. -/
theorem render_without_surface_witness :
    (render (fixedVirtuals none ⟨0, 0, 100, 100⟩ ⟨0, 0, 40, 40⟩)
        (clippedOwner 10 10 50 50) true).composites = [] ∧
      (render (fixedVirtuals none ⟨0, 0, 100, 100⟩ ⟨0, 0, 40, 40⟩)
        (clippedOwner 10 10 50 50) true).tree = [] :=
  render_without_surface (fixedVirtuals none ⟨0, 0, 100, 100⟩ ⟨0, 0, 40, 40⟩)
    (clippedOwner 10 10 50 50) true rfl

/-- C16: with a surface and the base-class `getRenderingAlpha`, an owner without
a clip rectangle is composited exactly once, from `srcRect(owner)` to
`dstRect(owner)` at the alpha of the owner; and with a clip rectangle, a
destination that is not rejected is composited at the alpha of the owner as
well. -/
theorem render_alpha_is_owner_alpha (v : Virtuals) (go : GraphicsObject) (tree : Bool)
    (surface : Surface) (hs : v.currentSurface go = some surface)
    (ha : v.getRenderingAlpha = getRenderingAlpha) :
    (go.hasClip = false →
      (render v go tree).composites =
        [⟨surface, go, v.srcRect go, v.dstRect go, go.alpha⟩]) ∧
    (go.hasClip = true → rejects go (v.dstRect go) = false →
      ∃ S1 D1 : Rect,
        (render v go tree).composites = [⟨surface, go, S1, D1, go.alpha⟩]) := by
  constructor
  · intro hc
    unfold render
    rw [hs, ha]
    simp [hc, getRenderingAlpha]
  · intro hc hr
    have hcomp := render_composites_of_not_rejects v go tree surface hs hc hr
    rw [ha] at hcomp
    exact ⟨_, _, hcomp⟩

/-- Witness for C16: an owner with alpha 128 and no clip rectangle. -/
theorem render_alpha_is_owner_alpha_witness :
    (render (fixedVirtuals (some ⟨7⟩) ⟨0, 0, 100, 100⟩ ⟨5, 5, 105, 105⟩)
        ⟨0, false, 0, 0, 0, 0, 128⟩ true).composites =
      [⟨⟨7⟩, ⟨0, false, 0, 0, 0, 0, 128⟩, ⟨0, 0, 100, 100⟩, ⟨5, 5, 105, 105⟩, 128⟩] :=
  (render_alpha_is_owner_alpha (fixedVirtuals (some ⟨7⟩) ⟨0, 0, 100, 100⟩ ⟨5, 5, 105, 105⟩)
    ⟨0, false, 0, 0, 0, 0, 128⟩ true ⟨7⟩ rfl rfl).1 rfl

/-- C17: the debug stream does not influence rendering: the composite calls of
`render` (their number, surface, owner, source rect, destination rect and alpha)
are the same whether the stream `tree` is supplied or not. -/
theorem render_composites_independent_of_tree (v : Virtuals) (go : GraphicsObject) :
    (render v go true).composites = (render v go false).composites := by
  unfold render
  cases v.currentSurface go with
  | none => rfl
  | some surface =>
    cases hc : go.hasClip with
    | false => rfl
    | true =>
      simp only [if_true]
      cases clipRects go (v.srcRect go) (v.dstRect go) with
      | none => rfl
      | some p => rfl

/-! ## Claims on frame counters -/

/-- C13: a `SimpleFrameCounter` with frameMin 0, frameMax 100 and 1000
milliseconds reads 0 at elapsed time 0, 100 at elapsed time 1000, and at every
elapsed time `u ≥ 1000` (1500 among them) reads 100 and becomes inactive; in
general a newly created counter reads `frameMax` and becomes inactive once the
elapsed time `t` reaches `milliseconds` (for every `frameMin ≤ frameMax` and
`milliseconds > 0`, and for the other values as well). -/
theorem simple_readFrame_clamps (frameMin frameMax : Int) (ms t : Nat) (ht : ms ≤ t) :
    ((SimpleFrameCounter.readFrame (FrameCounter.create frameMin frameMax ms) t).1 = frameMax ∧
      (SimpleFrameCounter.readFrame (FrameCounter.create frameMin frameMax ms) t).2.m_isActive
        = false) ∧
    (SimpleFrameCounter.readFrame (FrameCounter.create 0 100 1000) 0).1 = 0 ∧
    (SimpleFrameCounter.readFrame (FrameCounter.create 0 100 1000) 1000).1 = 100 ∧
    (SimpleFrameCounter.readFrame (FrameCounter.create 0 100 1000) 1500).1 = 100 ∧
    (∀ u : Nat, 1000 ≤ u →
      (SimpleFrameCounter.readFrame (FrameCounter.create 0 100 1000) u).1 = 100 ∧
      (SimpleFrameCounter.readFrame (FrameCounter.create 0 100 1000) u).2.m_isActive = false) := by
  have key : ∀ (a b : Int) (m u : Nat), m ≤ u →
      (SimpleFrameCounter.readFrame (FrameCounter.create a b m) u).1 = b ∧
      (SimpleFrameCounter.readFrame (FrameCounter.create a b m) u).2.m_isActive = false := by
    intro a b m u hmu
    simp [SimpleFrameCounter.readFrame, FrameCounter.create, hmu]
  refine ⟨key frameMin frameMax ms t ht, by decide, by decide, by decide, ?_⟩
  intro u hu
  exact key 0 100 1000 u hu

/-- Witness for C13: frameMin 0, frameMax 100, 1000 milliseconds, elapsed time
1500. -/
theorem simple_readFrame_clamps_witness :
    (SimpleFrameCounter.readFrame (FrameCounter.create 0 100 1000) 1500).1 = 100 ∧
      (SimpleFrameCounter.readFrame (FrameCounter.create 0 100 1000) 1500).2.m_isActive = false :=
  (simple_readFrame_clamps 0 100 1000 1500 (by decide)).1

/-- C14: the value of a `LoopFrameCounter` is periodic in the elapsed active
time, with period `milliseconds` (for every period, the periods `> 0` among
them): `readFrame` at `milliseconds + k` equals `readFrame` at `k` for every
`k`, in particular for frameMin 0, frameMax 100, 1000 milliseconds; and
`readFrame` never changes the activity of the counter. -/
theorem loop_readFrame_periodic (fc : FrameCounter) (k : Nat) :
    (LoopFrameCounter.readFrame fc (fc.milliseconds + k)).1 =
        (LoopFrameCounter.readFrame fc k).1 ∧
      (LoopFrameCounter.readFrame fc k).2.m_isActive = fc.m_isActive ∧
      (LoopFrameCounter.readFrame (FrameCounter.create 0 100 1000) (1000 + k)).1 =
        (LoopFrameCounter.readFrame (FrameCounter.create 0 100 1000) k).1 ∧
      (LoopFrameCounter.readFrame (FrameCounter.create 0 100 1000) k).2.m_isActive = true := by
  have key : ∀ g : FrameCounter,
      (LoopFrameCounter.readFrame g (g.milliseconds + k)).1 =
          (LoopFrameCounter.readFrame g k).1 ∧
        (LoopFrameCounter.readFrame g k).2.m_isActive = g.m_isActive := by
    intro g
    unfold LoopFrameCounter.readFrame
    cases h : g.m_isActive with
    | false => exact ⟨rfl, h⟩
    | true =>
      simp only [if_true, Nat.add_mod_left]
      exact ⟨trivial, trivial⟩
  exact ⟨(key fc).1, (key fc).2, (key (FrameCounter.create 0 100 1000)).1,
    (key (FrameCounter.create 0 100 1000)).2⟩

/-! ## Lemmas on `JisDecodeString` -/

theorem charAt_lt (src : List Nat) (i : Nat) : charAt src i < 256 :=
  Nat.mod_lt _ (by decide)

theorem isLeadByte_ge (c : Nat) (h : isLeadByte c = true) : 0x81 ≤ c := by
  simp [isLeadByte] at h
  omega

/-- A lead byte `c` and a trail byte `d` packed as `(c << 8) | d` fit in an
`unsigned short`, exceed `0xff`, and unpack to `c` and `d`. -/
theorem pack_unpack (c d : Nat) (hc : c < 256) (hd : d < 256) (hl : 0x81 ≤ c) :
    ((c <<< 8) ||| d) % 65536 = (c <<< 8) ||| d ∧ ¬ ((c <<< 8) ||| d) ≤ 0xff ∧
      (((c <<< 8) ||| d) >>> 8) &&& 0xff = c ∧ ((c <<< 8) ||| d) &&& 0xff = d := by
  have hd8 : d < 2 ^ 8 := by omega
  have hx : (c <<< 8) ||| d = 2 ^ 8 * c + d := by
    rw [Nat.shiftLeft_eq, Nat.mul_comm c (2 ^ 8), ← Nat.mul_add_lt_is_or hd8 c]
  have hff : (0xff : Nat) = 2 ^ 8 - 1 := by decide
  rw [hx]
  refine ⟨?_, ?_, ?_, ?_⟩
  · omega
  · omega
  · rw [hff, Nat.and_pow_two_sub_one_eq_mod, Nat.shiftRight_eq_div_pow]
    omega
  · rw [hff, Nat.and_pow_two_sub_one_eq_mod]
    omega

/-- One pass over a byte that is not a lead byte, with the base-class
`JisDecode`: the byte is stored and `i`, `j` advance by one. -/
theorem decodeStep_single (src : List Nat) (st : DecodeState)
    (h : isLeadByte (charAt src st.i) = false) :
    decodeStep Codepage.JisDecode src st =
      ⟨st.i + 1, st.j + 1, st.writes ++ [(st.j, charAt src st.i)]⟩ := by
  have hlt := charAt_lt src st.i
  have h1 : charAt src st.i % 65536 % 65536 = charAt src st.i := by omega
  have h2 : charAt src st.i ≤ 0xff := by omega
  simp only [decodeStep, h, Codepage.JisDecode, Bool.false_eq_true, if_false, h1, h2, if_true]

/-- One pass over a lead byte, with the base-class `JisDecode`: the lead byte
and the byte after it are stored and `i`, `j` advance by two. -/
theorem decodeStep_double (src : List Nat) (st : DecodeState)
    (h : isLeadByte (charAt src st.i) = true) :
    decodeStep Codepage.JisDecode src st =
      ⟨st.i + 2, st.j + 2,
        st.writes ++ [(st.j, charAt src st.i), (st.j + 1, charAt src (st.i + 1))]⟩ := by
  obtain ⟨p1, p2, p3, p4⟩ := pack_unpack (charAt src st.i) (charAt src (st.i + 1))
    (charAt_lt src st.i) (charAt_lt src (st.i + 1)) (isLeadByte_ge _ h)
  have h1 : ((charAt src st.i <<< 8) ||| charAt src (st.i + 1)) % 65536 % 65536 =
      (charAt src st.i <<< 8) ||| charAt src (st.i + 1) := by
    rw [p1, p1]
  simp only [decodeStep, h, Codepage.JisDecode, if_true, h1, p2, if_false, p3, p4]

/-- Every pass of the loop advances `i`. -/
theorem decodeStep_i_lt (jisDecode : Nat → Nat) (src : List Nat) (st : DecodeState) :
    st.i < (decodeStep jisDecode src st).i := by
  simp only [decodeStep]
  split_ifs <;> simp only <;> omega

/-- The loop terminates: with at least `srclen - i` passes of fuel it returns a
state. -/
theorem decodeLoop_isSome (jisDecode : Nat → Nat) (src : List Nat) (srclen buflen : Nat) :
    ∀ (fuel : Nat) (st : DecodeState), srclen - st.i ≤ fuel →
      ∃ st1, decodeLoop jisDecode src srclen buflen fuel st = some st1 := by
  intro fuel
  induction fuel with
  | zero =>
    intro st h
    unfold decodeLoop
    have : ¬ (st.i < srclen ∧ st.j < buflen) := by omega
    simp only [this, if_false]
    exact ⟨st, rfl⟩
  | succ n ih =>
    intro st h
    unfold decodeLoop
    by_cases hc : st.i < srclen ∧ st.j < buflen
    · simp only [hc, and_self, if_true]
      apply ih
      have := decodeStep_i_lt jisDecode src st
      omega
    · simp only [hc, if_false]
      exact ⟨st, rfl⟩

/-- `JisDecodeString` returns, for every `JisDecode`, source and `buflen`. -/
theorem JisDecodeString_returns (jisDecode : Nat → Nat) (src : List Nat) (buflen : Nat) :
    ∃ writes, JisDecodeString jisDecode src buflen = some writes := by
  obtain ⟨st1, h⟩ := decodeLoop_isSome jisDecode src (strlen src) buflen (strlen src) ⟨0, 0, []⟩
    (by simp)
  refine ⟨st1.writes ++ [(st1.j, 0)], ?_⟩
  simp only [JisDecodeString, h]

/-- For a source of bytes without NUL, `strlen` is the length of the list. -/
theorem strlen_eq_length (src : List Nat) (hb : ∀ b ∈ src, b < 256)
    (hn : ∀ b ∈ src, b ≠ 0) : strlen src = src.length := by
  unfold strlen
  rw [List.takeWhile_eq_self_iff.2]
  intro x hx
  have h1 := hb x hx
  have h2 := hn x hx
  have h3 : x % 256 = x := by omega
  simp [h3, h2]

theorem charAt_append_head (pre rest : List Nat) (c : Nat) (hc : c < 256) :
    charAt (pre ++ c :: rest) pre.length = c := by
  unfold charAt
  rw [List.getD_append_right _ _ _ _ (le_refl _)]
  simp
  omega

/-- The loop copies: started at position `pre.length` of `pre ++ rest` with
`i = j`, with the base-class `JisDecode`, a tail `rest` in which every lead byte
has its trail byte, and a buffer at least as long as the source, the loop
stores the bytes of `rest` one by one at their own indices and stops at the end
of the source. -/
theorem decodeLoop_copies (buflen : Nat) :
    ∀ (fuel : Nat) (pre rest : List Nat) (W : List (Nat × Nat)),
      (∀ b ∈ pre ++ rest, b < 256) → leadsHaveTrail false rest = true →
      rest.length ≤ fuel → (pre ++ rest).length ≤ buflen →
      decodeLoop Codepage.JisDecode (pre ++ rest) (pre ++ rest).length buflen fuel
          ⟨pre.length, pre.length, W⟩ =
        some ⟨(pre ++ rest).length, (pre ++ rest).length,
          W ++ List.enumFrom pre.length rest⟩ := by
  intro fuel
  induction fuel with
  | zero =>
    intro pre rest W _ _ hf _
    have hr : rest = [] := List.length_eq_zero.1 (Nat.le_zero.1 hf)
    subst hr
    unfold decodeLoop
    simp
  | succ n ih =>
    intro pre rest W hb hwf hf hbuf
    cases rest with
    | nil =>
      unfold decodeLoop
      simp
    | cons c r =>
      have hc : c < 256 := hb c (by simp)
      have hch : charAt (pre ++ c :: r) pre.length = c := charAt_append_head pre r c hc
      have hcond : pre.length < (pre ++ c :: r).length ∧ pre.length < buflen := by
        simp only [List.length_append, List.length_cons] at hbuf ⊢
        omega
      unfold decodeLoop
      simp only [hcond, and_self, if_true]
      cases hl : isLeadByte c with
      | false =>
        have hs := decodeStep_single (pre ++ c :: r) ⟨pre.length, pre.length, W⟩
          (by simpa only [hch] using hl)
        simp only [hch] at hs
        rw [hs]
        have hwf1 : leadsHaveTrail false r = true := by
          simpa only [leadsHaveTrail, hl] using hwf
        have h := ih (pre ++ [c]) r (W ++ [(pre.length, c)])
          (by simpa using hb) hwf1
          (by simp only [List.length_cons] at hf; omega)
          (by simpa using hbuf)
        simpa using h
      | true =>
        cases r with
        | nil => simp [leadsHaveTrail, hl] at hwf
        | cons d r2 =>
          have hd : d < 256 := hb d (by simp)
          have hch2 : charAt (pre ++ c :: d :: r2) (pre.length + 1) = d := by
            have h := charAt_append_head (pre ++ [c]) r2 d hd
            simpa using h
          have hs := decodeStep_double (pre ++ c :: d :: r2) ⟨pre.length, pre.length, W⟩
            (by simpa only [hch] using hl)
          simp only [hch, hch2] at hs
          rw [hs]
          have hwf1 : leadsHaveTrail false r2 = true := by
            simpa only [leadsHaveTrail, hl] using hwf
          have h := ih (pre ++ [c, d]) r2 (W ++ [(pre.length, c), (pre.length + 1, d)])
            (by simpa using hb) hwf1
            (by simp only [List.length_cons] at hf; omega)
            (by simpa using hbuf)
          simpa using h

/-! ## Lemmas on `Cp::instance` -/

/-- A call with a `desired` other than the recorded codepage creates the object
selected by `desired` and records `desired`. -/
theorem Cp.getInstance_of_ne (s : CpState) (desired : Int) (h : desired ≠ s.codepage) :
    Cp.getInstance s desired =
      .ok (⟨Cp.kindFor desired, s.created⟩,
        ⟨some ⟨Cp.kindFor desired, s.created⟩, desired, s.created + 1⟩) := by
  simp [Cp.getInstance, h, Cp.deref]

/-- A call with the recorded codepage as `desired` leaves the state as it is and
returns the existing object, when there is one. -/
theorem Cp.getInstance_of_eq (s : CpState) (c : CodepageObject)
    (hi : s.instance_ = some c) :
    Cp.getInstance s s.codepage = .ok (c, s) := by
  simp [Cp.getInstance, hi, Cp.deref]

/-- Every reachable state other than the initial one holds an object of the
class selected by the recorded codepage. -/
theorem Cp.reachable_inv (s : CpState) (h : Cp.Reachable s) :
    s = Cp.initial ∨ ∃ c, s.instance_ = some c ∧ c.kind = Cp.kindFor s.codepage := by
  induction h with
  | initial => exact Or.inl rfl
  | call s desired c s1 _ hcall ih =>
    right
    by_cases hd : desired = s.codepage
    · subst hd
      rcases ih with h0 | ⟨c0, hc0, hk0⟩
      · subst h0
        simp [Cp.getInstance, Cp.deref, Cp.initial] at hcall
      · rw [Cp.getInstance_of_eq s c0 hc0] at hcall
        simp only [Except.ok.injEq, Prod.mk.injEq] at hcall
        obtain ⟨_, hs⟩ := hcall
        subst hs
        exact ⟨c0, hc0, hk0⟩
    · rw [Cp.getInstance_of_ne s desired hd] at hcall
      simp only [Except.ok.injEq, Prod.mk.injEq] at hcall
      obtain ⟨_, hs⟩ := hcall
      subst hs
      exact ⟨_, rfl, rfl⟩

/-! ## Claims on codepages -/

/-- C18: evaluation against the claim.  With the source "a" and `buflen = 1`
the base `JisDecodeString` stores the byte at index 0 and the terminating NUL
at index 1, which is not below `buflen`; with the source `0x81 0x40` and
`buflen = 1` it stores at the indices 0, 1 and 2; with the empty source and
`buflen = 0` it stores the NUL at index 0. -/
theorem JisDecodeString_stores_at_buflen :
    JisDecodeString Codepage.JisDecode [0x61] 1 = some [(0, 0x61), (1, 0)] ∧
      JisDecodeString Codepage.JisDecode [0x81, 0x40] 1 =
        some [(0, 0x81), (1, 0x40), (2, 0)] ∧
      JisDecodeString Codepage.JisDecode [] 0 = some [(0, 0)] := by
  decide

/-- C19: with the base-class `JisDecode`, for a source of bytes without NUL in
which every lead byte is followed by a trail byte, and every `buflen` greater
than the length of the source plus one, `JisDecodeString` returns and its stores
are, in order, the bytes of the source at the indices `0, 1, ...` and then the
terminating NUL. -/
theorem JisDecodeString_copies (src : List Nat) (buflen : Nat)
    (hb : ∀ b ∈ src, b < 256) (hn : ∀ b ∈ src, b ≠ 0)
    (hwf : leadsHaveTrail false src = true) (hbuf : src.length + 1 < buflen) :
    JisDecodeString Codepage.JisDecode src buflen = some (List.enum (src ++ [0])) := by
  have h := decodeLoop_copies buflen src.length [] src [] (by simpa using hb) hwf
    (le_refl _) (by simp only [List.nil_append]; omega)
  simp only [List.nil_append, List.length_nil] at h
  simp only [JisDecodeString, strlen_eq_length src hb hn, h, List.enum, List.enumFrom_append,
    List.enumFrom_singleton, Nat.zero_add]

/-- Witness for C19: the source `a 0x81 0x40 b` and `buflen = 6`. -/
theorem JisDecodeString_copies_witness :
    JisDecodeString Codepage.JisDecode [0x61, 0x81, 0x40, 0x62] 6 =
      some [(0, 0x61), (1, 0x81), (2, 0x40), (3, 0x62), (4, 0)] :=
  JisDecodeString_copies [0x61, 0x81, 0x40, 0x62] 6 (by decide) (by decide) (by decide)
    (by decide)

/-- C20: evaluation against the claim.  In the initial state (reachable, with
`codepage = -1` and no object) the call `Cp::instance(-1)` finds `desired`
equal to the recorded codepage, creates nothing, and dereferences the empty
`instance_`. -/
theorem Cp_getInstance_initial_minus_one :
    Cp.Reachable Cp.initial ∧
      Cp.getInstance Cp.initial (-1) = Except.error Fault.nullDereference :=
  ⟨Cp.Reachable.initial, rfl⟩

end RLVM
